import Mathlib

/-
Verification development for the pyspc-write-jdx package: a shallow
embedding of `pyspc_write_jdx/data_records.py`,
`pyspc_write_jdx/data_table_records.py` and `pyspc_write_jdx/jdx.py`,
together with theorems settling the specification's claims about it.

Modelling conventions:
* A Python attribute value that may be `None` is an `Option`; the stored
  `DATA-SET` value of a record is `Option PyVal`, `none` standing for
  Python's `None` (value absent).
* Numeric table data is embedded as exact integers (`Int`).  The code
  formats every datum with `f"{x:.Nf}"`; on an integral value that
  rendering is exact, so the integer embedding is faithful for the data
  the claims are about.
* Python exceptions that a claim observes are `Except` errors carrying
  the exception's message string.
* Python's `textwrap.wrap(text, width=80)` (called with all defaults by
  `DataRecord.__str__`) is embedded functionally below; the embedding is
  faithful for text without tab characters and without hyphens (the
  default `TextWrapper` expands tabs position-dependently and can break
  words at hyphens; no claim concerns such text, and the theorems about
  wrapping carry the corresponding domain hypotheses).
-/

namespace PyJdx

/-- A Python scalar value as stored in a record's value slot: the shipped
schema stores strings and numbers. -/
inductive PyVal where
  | int : Int → PyVal
  | str : String → PyVal
  deriving DecidableEq

/-- Python truthiness `bool(v)` of a stored value: `bool(None)` is false,
`bool(0)` is false, `bool("")` is false. -/
def pyTruthy : Option PyVal → Bool
  | none => false
  | some (PyVal.int n) => !(n == 0)
  | some (PyVal.str s) => !(s == "")

/-- Python `str(v)` / f-string rendering of a stored scalar. -/
def pyValStr : PyVal → String
  | PyVal.int n => toString n
  | PyVal.str s => s

/-- Python's `repr` of a list of strings, as an f-string interpolates it:
`['a', 'b']`. -/
def pyReprStrList (l : List String) : String :=
  "[" ++ String.intercalate ", " (l.map (fun s => "'" ++ s ++ "'")) ++ "]"

/-- The validator callables of `data_records.py`, as a deep enumeration:
`_validate_required`, `_validate_choices`, `_validate_date`, and a tag for
a caller-supplied callable (the shipped schema never passes one; no claim
depends on a custom rule's behaviour). -/
inductive Validator where
  | validateRequired
  | validateChoices
  | validateDate
  | custom : Nat → Validator
  deriving DecidableEq

/-- The Python object a validator receives as its second argument in
`BaseJDX.validate`.  `dict` is a dictionary of sibling record values;
`boundMethod` is the un-called bound method object that the expression
`self.values_dict` (without parentheses) evaluates to. -/
inductive PyCtxVal where
  | dict : List (String × Option PyVal) → PyCtxVal
  | boundMethod : PyCtxVal
  deriving DecidableEq

/-- `data_records.DataRecord` after `__init__` has run: label, format
category, optional choices, required flag, the assembled validator list,
the stored value (initially absent) and the optional inline comment. -/
structure DataRecord where
  label : String
  format : String
  choices : Option (List String)
  required : Bool
  validators : List Validator
  value : Option PyVal
  comment : Option String
  deriving DecidableEq

/-- `DataRecord.__init__`: starting from the caller's validator list
(`None` becomes `[]`), `_validate_choices` is prepended when `choices` is
not `None`, then `_validate_required` is prepended when `required` is
true; the value slot starts absent. -/
def dataRecordInit (label format : String) (choices : Option (List String))
    (validators : Option (List Validator)) (required : Bool)
    (comment : Option String) : DataRecord :=
  let vs := validators.getD []
  let vs := if choices.isSome then Validator.validateChoices :: vs else vs
  let vs := if required then Validator.validateRequired :: vs else vs
  { label := label, format := format, choices := choices, required := required,
    validators := vs, value := none, comment := comment }

/-- Python `value in choices` for a stored scalar against the string
choice list (equality between a number and a string is false). -/
def pyMem (v : PyVal) (cs : List String) : Bool :=
  cs.any (fun c => decide (v = PyVal.str c))

/-- The message `_validate_required` raises. -/
def requiredErrorMsg (label : String) : String :=
  "DATA-LABEL '##" ++ label ++ "=' is required."

/-- The message `_validate_choices` raises. -/
def choicesErrorMsg (label : String) (cs : List String) : String :=
  "Unexpected value for DATA-LABEL '##" ++ label ++ "='. Available values "
    ++ pyReprStrList cs ++ "."

/-- The five date formats `_validate_date` tries. -/
def allowedDateFormats : List String :=
  ["%Y/%m/%d", "%Y/%m/%d %H:%M", "%Y/%m/%d %H:%M:%S", "%Y/%m/%d %H:%M:%S.%f",
   "%Y/%m/%d %H:%M:%S.%f%z"]

/-- The message `_validate_date` raises after every format failed. -/
def dateErrorMsg : String :=
  "Unexpected date-time format. Allowed formats: " ++ pyReprStrList allowedDateFormats

/-- The call `datetime.datetime.strptime(instance.value, format)` inside
`_validate_date`.  The module does `from datetime import datetime`, so
`datetime` names the class and the nested accessor `datetime.datetime`
does not exist: evaluating the receiver raises `AttributeError` before
any parsing can happen, whatever the value and format are. -/
def strptimeBrokenCall (value : Option PyVal) (fm : String) : Except String Bool :=
  Except.error "type object 'datetime.datetime' has no attribute 'datetime'"

/-- The `for format in allowed_formats` loop of `_validate_date`: each
attempt's exception is swallowed by `except Exception: pass`; an attempt
that succeeded would `return True`; after the loop the `ValidationError`
is raised. -/
def validateDateLoop (value : Option PyVal) : List String → Except String Bool
  | [] => Except.error dateErrorMsg
  | fm :: rest =>
    match strptimeBrokenCall value fm with
    | Except.ok _ => Except.ok true
    | Except.error _ => validateDateLoop value rest

/-- Run one validator on a record, given the context object passed as the
second argument.  `Except.error` carries the raised exception's message;
the `custom` tag is an uninterpreted caller-supplied rule (returns
`True`), which no claim exercises. -/
def runValidator : Validator → DataRecord → PyCtxVal → Except String Bool
  | Validator.validateRequired, r, _ =>
    if r.value = none then Except.error (requiredErrorMsg r.label)
    else Except.ok true
  | Validator.validateChoices, r, _ =>
    match r.choices, r.value with
    | some cs, some v =>
      if pyMem v cs then Except.ok true else Except.error (choicesErrorMsg r.label cs)
    | _, _ => Except.ok true
  | Validator.validateDate, r, _ => validateDateLoop r.value allowedDateFormats
  | Validator.custom _, _, _ => Except.ok true

/-- `DataRecord.validate`: run every validator in order; each raised
exception's message is appended to the error list, a success contributes
nothing, and evaluation never stops early. -/
def DataRecord.validate (r : DataRecord) (ctx : PyCtxVal) : List String :=
  r.validators.foldl
    (fun errors v =>
      match runValidator v r ctx with
      | Except.ok _ => errors
      | Except.error e => errors ++ [e])
    []

/-- `LongDateDataRecord.__init__`.  The local code reads
`validators = kwargs.get("validators", [])` and appends `_validate_date`
to that list, but forwards only `**kwargs` to the base constructor: when
the caller passed a `validators` keyword, the appended-to list is the very
kwargs list (aliasing), so the date rule is forwarded; when the keyword is
absent, the locally built list is discarded and the base constructor sees
no validators argument at all. -/
def longDateRecordInit (label : String) (kwargsValidators : Option (List Validator))
    (required : Bool) (comment : Option String) : DataRecord :=
  dataRecordInit label "STRING" none
    (kwargsValidators.map (fun vs => vs ++ [Validator.validateDate]))
    required comment

/-- The `value` setter of `LongDateDataRecord` on a string argument:
`str(value)` of a string is the string itself. -/
def longDateSetString (r : DataRecord) (s : String) : DataRecord :=
  { r with value := some (PyVal.str s) }

/-! Functional embedding of Python's `textwrap.wrap(text, width)` with the
default `TextWrapper` options, which is what `DataRecord.__str__` calls
(`wrap(f"{ldr} {self.value}", width=80)`).  Text is handled as `List Char`.
Faithful for text without tabs (default `expand_tabs` is position
dependent) and without hyphens (default `break_on_hyphens` can split a
chunk at a hyphen); all whitespace handling, greedy packing,
`drop_whitespace` and `break_long_words` behaviour is embedded exactly. -/

/-- The characters of Python's `string.whitespace`, each of which
`_munge_whitespace` turns into a single space. -/
def pyWsChar (c : Char) : Bool :=
  c == ' ' || c == '\t' || c == '\n' || c == '\x0b' || c == '\x0c' || c == '\r'

/-- `TextWrapper._munge_whitespace` (tab-free text): every whitespace
character becomes a space. -/
def mungeWhitespace (cs : List Char) : List Char :=
  cs.map (fun c => if pyWsChar c then ' ' else c)

/-- `TextWrapper._split` on hyphen-free munged text: the chunk list is the
alternation of maximal space runs and maximal non-space runs, in order. -/
def splitChunks : List Char → List (List Char)
  | [] => []
  | c :: rest =>
    match splitChunks rest with
    | [] => [[c]]
    | [] :: gs => [c] :: [] :: gs
    | (d :: ds) :: gs =>
      if (c == ' ') == (d == ' ') then (c :: d :: ds) :: gs
      else [c] :: (d :: ds) :: gs

/-- Whether a chunk is whitespace-only (`chunk.strip() == ''` on munged
text). -/
def wsChunk (c : List Char) : Bool :=
  c.all (fun ch => ch == ' ')

/-- The inner `while chunks:` loop of `_wrap_chunks`: greedily move chunks
onto the current line while `cur_len + len(chunk) <= width`.  Returns the
taken chunks, the resulting `cur_len`, and the chunks left. -/
def takeFit (width : Nat) (curLen : Nat) :
    List (List Char) → List (List Char) × Nat × List (List Char)
  | [] => ([], curLen, [])
  | c :: rest =>
    if curLen + c.length ≤ width then
      let r := takeFit width (curLen + c.length) rest
      (c :: r.1, r.2.1, r.2.2)
    else ([], curLen, c :: rest)

/-- `TextWrapper._handle_long_word` (with `break_long_words` true and no
hyphen in the chunk), guarded by `if chunks and len(chunks[-1]) > width`:
the head chunk's first `space_left` characters close the current line and
its remainder stays in the queue. -/
def handleLongWord (width curLen : Nat) (curLine rem : List (List Char)) :
    List (List Char) × List (List Char) :=
  match rem with
  | [] => (curLine, [])
  | c :: rest =>
    if width < c.length then
      let spaceLeft := if width < 1 then 1 else width - curLen
      (curLine ++ [c.take spaceLeft], c.drop spaceLeft :: rest)
    else (curLine, c :: rest)

/-- `drop_whitespace` at the end of a line: a whitespace-only final chunk
of the current line is removed. -/
def dropTrailingWs (curLine : List (List Char)) : List (List Char) :=
  match curLine.getLast? with
  | some l => if wsChunk l then curLine.dropLast else curLine
  | none => []

/-- `drop_whitespace` at the start of a continuation line: one leading
whitespace-only chunk is removed once a line has been produced. -/
def dropLeadingWs (hasLines : Bool) (chunks : List (List Char)) : List (List Char) :=
  match hasLines, chunks with
  | true, c :: rest => if wsChunk c then rest else c :: rest
  | _, cs => cs

/-- One iteration of the outer `while chunks:` loop of `_wrap_chunks`:
returns the produced line, if any (`if cur_line: lines.append(...)`), and
the remaining chunks. -/
def wrapStep (width : Nat) (hasLines : Bool) (chunks : List (List Char)) :
    Option (List Char) × List (List Char) :=
  let chunks1 := dropLeadingWs hasLines chunks
  let t := takeFit width 0 chunks1
  let h := handleLongWord width t.2.1 t.1 t.2.2
  let curLine := dropTrailingWs h.1
  (if curLine.isEmpty then none else some curLine.flatten, h.2)

/-- Termination measure for the outer loop: every iteration on a nonempty
queue either consumes a whole chunk or shortens the head chunk (proved
below as `wrapStep_measure_lt`). -/
def chunkMeasure (cs : List (List Char)) : Nat :=
  (cs.map (fun c => c.length + 1)).sum

/-- The outer `while chunks:` loop, with an explicit iteration budget;
`chunkMeasure` iterations always suffice (`wrapLoopFuel_sufficient`
below), so `pyWrap` runs the loop to completion exactly as Python does. -/
def wrapLoopFuel (width : Nat) : Nat → Bool → List (List Char) → List (List Char)
  | 0, _, _ => []
  | _ + 1, _, [] => []
  | fuel + 1, hasLines, c :: rest =>
    let s := wrapStep width hasLines (c :: rest)
    match s.1 with
    | some l => l :: wrapLoopFuel width fuel true s.2
    | none => wrapLoopFuel width fuel hasLines s.2

/-- `textwrap.wrap(text, width)` with default options on tab- and
hyphen-free text. -/
def pyWrap (width : Nat) (text : String) : List String :=
  let chunks := splitChunks (mungeWhitespace text.data)
  (wrapLoopFuel width (chunkMeasure chunks) false chunks).map (fun l => String.mk l)

/-- `DataRecord.__str__` before the final join: the bare `##LABEL=` line
when no value is set, otherwise `wrap(f"##LABEL= {value}", width=80)`;
when an inline comment is set it is appended to the first line as
`  $$ comment`.  (With a value present the wrapped list is never empty,
so Python's `ldr[0]` access succeeds.) -/
def DataRecord.strLines (r : DataRecord) : List String :=
  let ldr := "##" ++ r.label ++ "="
  let ls := match r.value with
    | some v => pyWrap 80 (ldr ++ " " ++ pyValStr v)
    | none => [ldr]
  match r.comment with
  | some cm =>
    match ls with
    | l0 :: rest => (l0 ++ "  $$ " ++ cm) :: rest
    | [] => []
  | none => ls

/-- `DataRecord.__str__` / `__repr__`: the wrapped lines joined with
newlines. -/
def DataRecord.str (r : DataRecord) : String :=
  String.intercalate "\n" r.strLines

/-! Embedding of `data_table_records.py`. -/

/-- Python `f"{x:.{dp}f}"` on an integral value: optional minus sign, the
decimal digits, and `dp` zeros after the point (no point when `dp = 0`). -/
def formatFixed (dp : Nat) (x : Int) : String :=
  (if x < 0 then "-" else "") ++ toString x.natAbs
    ++ (if dp = 0 then "" else "." ++ String.mk (List.replicate dp '0'))

/-- Python `s.rjust(w)`: left-pad with spaces up to width `w`. -/
def rjust (w : Nat) (s : String) : String :=
  String.mk (List.replicate (w - s.length) ' ') ++ s

/-- The length of the shortest member list (0 for no lists): the number of
tuples Python's `zip(*lists)` yields. -/
def minLen (ls : List (List String)) : Nat :=
  match ls with
  | [] => 0
  | l :: rest => rest.foldl (fun m x => min m x.length) l.length

/-- Python `zip(*ls)` over string lists, each tuple as a list in the same
order. -/
def zipMinStr (ls : List (List String)) : List (List String) :=
  (List.range (minLen ls)).map (fun i => ls.map (fun l => l.getD i ""))

/-- The line-packing loop of `TupleDataTableRecord._str_sequential_data_lines`:
`new_length = len(current_line) + len(pair) + len(sep)`; when it exceeds 80
the current line is flushed and the pair starts a new line, otherwise the
pair is appended after `" : "`; the final current line is flushed last. -/
def packLoop : List String → String → List String → List String
  | [], currentLine, out => out ++ [currentLine]
  | pair :: rest, currentLine, out =>
    if currentLine.length + pair.length + " : ".length > 80 then
      packLoop rest pair (out ++ [currentLine])
    else
      packLoop rest (currentLine ++ " : " ++ pair) out

/-- The `for v in self.data:` loop of `_str_sequential_data_lines`: format
every datum of the dimension to the configured decimal places, compute
`max([len(x) for x in formatted_v])` (a `ValueError` on an empty
dimension), and right-justify each formatted value to that width. -/
def formatDimensions (dp : Nat) : List (List Int) → Except String (List (List String))
  | [] => Except.ok []
  | v :: rest =>
    let fv := v.map (formatFixed dp)
    match fv.map String.length with
    | [] => Except.error "ValueError: max() arg is an empty sequence"
    | n :: ns =>
      match formatDimensions dp rest with
      | Except.error e => Except.error e
      | Except.ok tail => Except.ok (fv.map (rjust (ns.foldl max n)) :: tail)

/-- `TupleDataTableRecord._str_sequential_data_lines`: per-dimension
formatting and padding, `", ".join` over each tuple of `zip(*data)`, then
the 80-column packing loop seeded with `formatted_pairs[0]` (an
`IndexError` when there are no data points). -/
def strSequentialDataLines (dp : Nat) (data : List (List Int)) :
    Except String (List String) :=
  match formatDimensions dp data with
  | Except.error e => Except.error e
  | Except.ok formattedData =>
    match (zipMinStr formattedData).map (String.intercalate ", ") with
    | [] => Except.error "IndexError: list index out of range"
    | first :: rest => Except.ok (packLoop rest first [])

/-- ASCII `[A-Z]`. -/
def isUpperAZ (c : Char) : Bool :=
  'A' ≤ c && c ≤ 'Z'

/-- The regex `^\(([A-Z])\+\+\(([A-Z])\.\.[A-Z]\)\)$` of
`SequenceDataTableRecord.__init__`: on a match the two captured dimension
letters. -/
def parseSeqFormat (s : String) : Option (List Char) :=
  match s.data with
  | '(' :: a :: '+' :: '+' :: '(' :: b :: '.' :: '.' :: c :: ')' :: ')' :: [] =>
    if isUpperAZ a && isUpperAZ b && isUpperAZ c then some [a, b] else none
  | _ => none

/-- The regex `^\(([A-Z]{2,})\.\.[A-Z]{2,}\)$` of
`TupleDataTableRecord.__init__`: on a match the letters of the first
group, each a dimension. -/
def parseTupleFormat (s : String) : Option (List Char) :=
  match s.data with
  | '(' :: rest =>
    let u1 := rest.takeWhile isUpperAZ
    match rest.drop u1.length with
    | '.' :: '.' :: r2 =>
      let u2 := r2.takeWhile isUpperAZ
      if 2 ≤ u1.length && 2 ≤ u2.length && r2.drop u2.length == [')'] then some u1
      else none
    | _ => none
  | _ => none

/-- An exception raised by a table-record constructor. -/
inductive InitError where
  | valueError : String → InitError
  | notImplementedError : String → InitError
  deriving DecidableEq

/-- A constructed `SequenceDataTableRecord`. -/
structure SequenceDataTableRecord where
  label : String
  format : String
  dimensions : List Char
  compression : String
  decimalPlaces : Nat
  singleColumn : Bool
  deriving DecidableEq

/-- `SequenceDataTableRecord.__init__`: the format token is parsed first
(`ValueError` on a mismatch), then any compression other than `"AFFN"`
raises `NotImplementedError` before the base constructor runs. -/
def sequenceDataTableRecordInit (label format compression : String)
    (decimalPlaces : Nat) (singleColumn : Bool) :
    Except InitError SequenceDataTableRecord :=
  match parseSeqFormat format with
  | none =>
    Except.error (InitError.valueError
      "Unexpected data format. The format must be like '(X++(Y..Y))'")
  | some dims =>
    if compression == "AFFN" then
      Except.ok { label := label, format := format, dimensions := dims,
                  compression := compression, decimalPlaces := decimalPlaces,
                  singleColumn := singleColumn }
    else
      Except.error (InitError.notImplementedError
        "Only AFFN (i.e. no compression) is available")

/-- `TupleDataTableRecord.__init__`'s format parse: the dimension letters,
or the `ValueError` it raises. -/
def tupleDataTableRecordDims (format : String) : Except InitError (List Char) :=
  match parseTupleFormat format with
  | some dims => Except.ok dims
  | none =>
    Except.error (InitError.valueError
      "Unexpected data format. The format must be like '(XY..XY)'")

/-- The `data` setter of `DataTableRecord`: the matrix must have exactly
one list per declared dimension, and `len(set(len(x) for x in data)) == 1`
(all inner lengths equal, at least one list). -/
def dataSetterCheck (ndimensions : Nat) (data : List (List Int)) :
    Except String (List (List Int)) :=
  if !(data.length == ndimensions) then
    Except.error ("The data must be a list of " ++ toString ndimensions ++ " lists")
  else if !((data.map List.length).eraseDups.length == 1) then
    Except.error "The sub-lists of the data have different size"
  else Except.ok data

/-- The data-derived record assignments at the end of `SimpleJDX.__init__`,
run after the table's `data` setter has accepted the matrix:
`x = data[0]`, then `kwargs.get("firstx", x[0])` — the default argument
`x[0]` is evaluated before the lookup, so an empty first dimension raises
`IndexError` even when an explicit override was supplied — then likewise
`x[-1]` and `len(x)`.  Returns the derived `(firstx, lastx, npoints)`. -/
def simpleJDXSetDerivedFields (tableNDims : Nat) (data : List (List Int))
    (firstxKwarg lastxKwarg npointsKwarg : Option Int) :
    Except String (Int × Int × Int) :=
  match dataSetterCheck tableNDims data with
  | Except.error e => Except.error e
  | Except.ok checked =>
    match checked.head? with
    | none => Except.error "IndexError: list index out of range"
    | some x =>
      match x.head? with
      | none => Except.error "IndexError: list index out of range"
      | some x0 =>
        match x.getLast? with
        | none => Except.error "IndexError: list index out of range"
        | some xn =>
          Except.ok (firstxKwarg.getD x0, lastxKwarg.getD xn,
                     npointsKwarg.getD (Int.ofNat x.length))

/-! Embedding of `jdx.py` (`BaseJDX` / `CompoundJDX`).  A block is its
ordered association list of record attributes (title first, the order
`_all_data_records` establishes) plus the optional explicit
`output_data_records` list. -/

/-- A `BaseJDX` instance's record attributes, in output order, plus the
optional explicit `output_data_records` list. -/
structure Block where
  records : List (String × DataRecord)
  outputDataRecords : Option (List String)
  deriving DecidableEq

/-- A record used only as the (never reached) default of an association
lookup whose keys are known to be present. -/
def placeholderRecord : DataRecord :=
  dataRecordInit "" "TEXT" none none false none

/-- `getattr(self, name)` for an attribute name drawn from the block's
record list (every name `BaseJDX` looks up this way is present). -/
def lookupRecord (b : Block) (name : String) : DataRecord :=
  (b.records.lookup name).getD placeholderRecord

/-- The default output selection of `get_output_data_records` (no explicit
list): every record that is required or whose stored value is truthy —
`getattr(self, name).required or bool(getattr(self, name).value)`. -/
def defaultOutputRecords (b : Block) : List String :=
  (b.records.filter (fun p => p.2.required || pyTruthy p.2.value)).map Prod.fst

/-- `BaseJDX.get_output_data_records`: the default selection, or the
validated explicit list (`AssertionError` on an unknown name or a missing
required record), and in either case the first entry must be `title`
(an `IndexError` on an empty selection). -/
def getOutputDataRecords (b : Block) : Except String (List String) :=
  let allNames := b.records.map Prod.fst
  let checked : Except String (List String) :=
    match b.outputDataRecords with
    | none => Except.ok (defaultOutputRecords b)
    | some lst =>
      match lst.find? (fun dr => !(allNames.contains dr)) with
      | some dr =>
        Except.error ("Data record '" ++ dr ++ "' in 'output_data_records' was not defined")
      | none =>
        match (b.records.filter (fun p => p.2.required)).find?
            (fun p => !(lst.contains p.1)) with
        | some p =>
          Except.error ("Data record '" ++ p.1
            ++ "' is required by not included in 'output_data_records'")
        | none => Except.ok lst
  match checked with
  | Except.error e => Except.error e
  | Except.ok attrs =>
    match attrs.head? with
    | none => Except.error "IndexError: list index out of range"
    | some a =>
      if a == "title" then Except.ok attrs
      else Except.error "First output data record must be 'title'"

/-- `BaseJDX.values_dict()`: the mapping from every record attribute name
to its stored value. -/
def blockValuesDict (b : Block) : List (String × Option PyVal) :=
  b.records.map (fun p => (p.1, p.2.value))

/-- The object `BaseJDX.validate` passes to every record's `validate`:
the line `values_dict = self.values_dict` has no call parentheses, so it
binds the bound method object itself, never the dictionary
`values_dict()` would return. -/
def blockValidateContext (b : Block) : PyCtxVal :=
  PyCtxVal.boundMethod

/-- `BaseJDX.validate`: run every selected output record's validators with
the context object of `blockValidateContext`, and keep the entries with a
nonempty error list. -/
def blockValidate (b : Block) : Except String (List (String × List String)) :=
  match getOutputDataRecords b with
  | Except.error e => Except.error e
  | Except.ok names =>
    Except.ok
      (((names.map (fun n => (n, (lookupRecord b n).validate (blockValidateContext b))))).filter
        (fun p => !p.2.isEmpty))

/-- `BaseJDX.__repr__`: every selected output record's `__str__`, joined
with newlines. -/
def blockHeadersRepr (b : Block) : Except String String :=
  match getOutputDataRecords b with
  | Except.error e => Except.error e
  | Except.ok names =>
    Except.ok (String.intercalate "\n" (names.map (fun n => (lookupRecord b n).str)))

/-- A `CompoundJDX` instance: the four header record values and the child
block list, each child abstracted to its rendered text. -/
structure CompoundJDX where
  titleValue : Option PyVal
  jcampDxValue : Option PyVal
  dataTypeValue : Option PyVal
  blockCountValue : Option PyVal
  blocks : List String
  deriving DecidableEq

/-- `CompoundJDX.__init__(title, *blocks)`: fixed version and type
markers, and `block_count.value = len(blocks)`. -/
def compoundInit (title : String) (blocks : List String) : CompoundJDX :=
  { titleValue := some (PyVal.str title), jcampDxValue := some (PyVal.str "5.01"),
    dataTypeValue := some (PyVal.str "LINK"),
    blockCountValue := some (PyVal.int (Int.ofNat blocks.length)), blocks := blocks }

/-- `CompoundJDX.add_block` on a valid block: append it and set
`block_count.value = len(self.blocks)`. -/
def compoundAddBlock (c : CompoundJDX) (blockText : String) : CompoundJDX :=
  let blocks := c.blocks ++ [blockText]
  { c with blocks := blocks,
           blockCountValue := some (PyVal.int (Int.ofNat blocks.length)) }

/-- The header `Block` of a `CompoundJDX` instance: the four class records
(`TITLE`, `JCAMP-DX`, `DATA TYPE`, `BLOCKS`, all required, built through
`DataRecord.__init__` exactly as the class body does) carrying the
instance's current values, title first as `_all_data_records`
guarantees. -/
def compoundRecords (c : CompoundJDX) : List (String × DataRecord) :=
  [("title",
    { dataRecordInit "TITLE" "TEXT" none none true none with value := c.titleValue }),
   ("jcamp_dx",
    { dataRecordInit "JCAMP-DX" "STRING" (some ["5.01"]) none true none with
        value := c.jcampDxValue }),
   ("data_type",
    { dataRecordInit "DATA TYPE" "STRING" (some ["LINK"]) none true none with
        value := c.dataTypeValue }),
   ("block_count",
    { dataRecordInit "BLOCKS" "AFFN" none none true none with
        value := c.blockCountValue })]

/-- `CompoundJDX.__repr__`: the header block is rendered first, from the
state as it stands when the render begins; only after that (and after the
child texts are collected) does `self.block_count.value = len(blocks)`
run, so the recomputed count takes effect for the next render, not this
one.  Returns the rendered document and the post-render state. -/
def compoundRepr (c : CompoundJDX) : Except String (String × CompoundJDX) :=
  match blockHeadersRepr { records := compoundRecords c, outputDataRecords := none } with
  | Except.error e => Except.error e
  | Except.ok headers =>
    let blocks := c.blocks
    let after := { c with blockCountValue := some (PyVal.int (Int.ofNat blocks.length)) }
    Except.ok (String.intercalate "\n\n" ([headers] ++ blocks ++ ["##END="]), after)

/-! Specification-side definitions, written from the spec's own words
("format every column's values to fixed decimal places; within each
dimension, right-justify ... to the maximum formatted width of that
dimension; join each point's per-dimension strings with `", "`; pack
point-groups left to right on a line, separating adjacent groups with
`" : "`, starting a new line whenever appending the next group (plus
separator) would exceed 80 characters"), to be compared with the
source-derived `strSequentialDataLines`. -/

/-- Specification wording: one dimension's values, formatted to fixed
decimal places and right-justified to the maximum formatted width of that
dimension. -/
def specFormatColumn (dp : Nat) (v : List Int) : List String :=
  let fv := v.map (formatFixed dp)
  fv.map (rjust ((fv.map String.length).foldr max 0))

/-- Specification wording: the point-groups, each point's per-dimension
strings joined with `", "`. -/
def specPointGroups (dp : Nat) (data : List (List Int)) : List String :=
  (zipMinStr (data.map (specFormatColumn dp))).map (String.intercalate ", ")

/-- Specification wording: place one more point-group, starting a new line
exactly when the current line's length plus the separator's length plus
the group's length would exceed 80. -/
def specAddGroup (ls : List String) (g : String) : List String :=
  match ls.getLast? with
  | none => [g]
  | some l =>
    if l.length + " : ".length + g.length > 80 then ls ++ [g]
    else ls.dropLast ++ [l ++ " : " ++ g]

/-- Specification wording: the packed data lines, the point-groups placed
left to right. -/
def specPackedDataLines (dp : Nat) (data : List (List Int)) : List String :=
  (specPointGroups dp data).foldl specAddGroup []

/-- A record with a value set, used as a concrete instance by the wrapping
theorems: a label `X` and a value of one hundred `a` characters. -/
def c2CexRecord : DataRecord :=
  { dataRecordInit "X" "TEXT" none none false none with
      value := some (PyVal.str (String.mk (List.replicate 100 'a'))) }

/-- A record with a short value, used as a concrete instance by the
wrapping theorems. -/
def c2ShortRecord : DataRecord :=
  { dataRecordInit "TITLE" "TEXT" none none true none with
      value := some (PyVal.str "hello") }

/-- A compound instance whose child list was extended directly (not
through `add_block`), leaving the stored block count at its initial 0. -/
def c5Mutated : CompoundJDX :=
  { compoundInit "t" [] with blocks := ["B1", "B2"] }

/-- A block with a required title and one optional record whose value has
been set to the number 0, used as a concrete instance by the
output-selection theorems. -/
def c9Block : Block :=
  { records :=
      [("title",
        { dataRecordInit "TITLE" "TEXT" none none true none with
            value := some (PyVal.str "t") }),
       ("mp",
        { dataRecordInit "MP" "AFFN" none none false none with
            value := some (PyVal.int 0) })],
    outputDataRecords := none }

/-! Helper lemmas. -/

theorem foldl_max_eq_max_foldr (n : Nat) (ns : List Nat) :
    ns.foldl max n = max n (ns.foldr max 0) := by
  induction ns generalizing n with
  | nil => simp
  | cons m ms ih =>
    simp only [List.foldl_cons, List.foldr_cons]
    rw [ih (max n m), Nat.max_assoc]

theorem assoc_pair_eq_of_nodup {α β : Type} (l : List (α × β))
    (hn : (l.map Prod.fst).Nodup) {p q : α × β}
    (hp : p ∈ l) (hq : q ∈ l) (h : p.1 = q.1) : p = q := by
  induction l with
  | nil => cases hp
  | cons a t ih =>
    simp only [List.map_cons, List.nodup_cons] at hn
    rcases List.mem_cons.mp hp with hp1 | hp2 <;>
      rcases List.mem_cons.mp hq with hq1 | hq2
    · rw [hp1, hq1]
    · exfalso
      apply hn.1
      rw [hp1] at h
      rw [h]
      exact List.mem_map_of_mem Prod.fst hq2
    · exfalso
      apply hn.1
      rw [hq1] at h
      rw [← h]
      exact List.mem_map_of_mem Prod.fst hp2
    · exact ih hn.2 hp2 hq2

theorem sep_length : (" : ").length = 3 := rfl

theorem specAddGroup_concat (acc : List String) (line p : String) :
    specAddGroup (acc ++ [line]) p =
      if line.length + p.length + " : ".length > 80 then (acc ++ [line]) ++ [p]
      else acc ++ [line ++ " : " ++ p] := by
  simp only [specAddGroup, List.getLast?_concat, List.dropLast_concat, sep_length]
  rcases Nat.lt_or_ge 80 (line.length + p.length + 3) with hlt | hge
  · rw [if_pos (by omega), if_pos (by omega)]
  · rw [if_neg (by omega), if_neg (by omega)]

theorem packLoop_eq_foldl (pairs : List String) (line : String) (acc : List String) :
    packLoop pairs line acc = pairs.foldl specAddGroup (acc ++ [line]) := by
  induction pairs generalizing line acc with
  | nil => simp [packLoop]
  | cons p rest ih =>
    simp only [packLoop, List.foldl_cons, specAddGroup_concat]
    by_cases hcond : line.length + p.length + " : ".length > 80
    · rw [if_pos hcond, if_pos hcond, ih]
    · rw [if_neg hcond, if_neg hcond, ih]

theorem formatDimensions_eq_spec (dp : Nat) (data : List (List Int))
    (h : ∀ v ∈ data, v ≠ []) :
    formatDimensions dp data = Except.ok (data.map (specFormatColumn dp)) := by
  induction data with
  | nil => rfl
  | cons v rest ih =>
    have hv : v ≠ [] := h v (List.mem_cons_self v rest)
    have hrest : ∀ w ∈ rest, w ≠ [] := fun w hw => h w (List.mem_cons_of_mem v hw)
    cases v with
    | nil => exact absurd rfl hv
    | cons x xs =>
      simp only [formatDimensions, List.map_cons, ih hrest, specFormatColumn]
      rw [foldl_max_eq_max_foldr]
      rfl

theorem minLen_foldl_pos (a : Nat) (ls : List (List String)) (ha : 0 < a)
    (h : ∀ l ∈ ls, l ≠ []) :
    0 < ls.foldl (fun m x => min m x.length) a := by
  induction ls generalizing a with
  | nil => exact ha
  | cons l t ih =>
    have hl : 0 < l.length :=
      List.length_pos.mpr (h l (List.mem_cons_self l t))
    exact ih (min a l.length) (lt_min ha hl)
      (fun w hw => h w (List.mem_cons_of_mem l hw))

theorem specFormatColumn_ne_nil (dp : Nat) (v : List Int) (hv : v ≠ []) :
    specFormatColumn dp v ≠ [] := by
  simp [specFormatColumn, hv]

theorem specPointGroups_ne_nil (dp : Nat) (data : List (List Int))
    (hne : data ≠ []) (h : ∀ v ∈ data, v ≠ []) :
    specPointGroups dp data ≠ [] := by
  cases data with
  | nil => exact absurd rfl hne
  | cons v rest =>
    have hpos : 0 < minLen ((v :: rest).map (specFormatColumn dp)) := by
      simp only [List.map_cons, minLen]
      refine minLen_foldl_pos _ _ ?_ ?_
      · exact List.length_pos.mpr
          (specFormatColumn_ne_nil dp v (h v (List.mem_cons_self v rest)))
      · intro l hl
        rcases List.mem_map.mp hl with ⟨w, hw, hlw⟩
        exact hlw ▸ specFormatColumn_ne_nil dp w (h w (List.mem_cons_of_mem v hw))
    simp only [specPointGroups, zipMinStr]
    intro hcontra
    rcases List.map_eq_nil_iff.mp hcontra with h2
    rcases List.map_eq_nil_iff.mp h2 with h3
    rw [List.range_eq_nil] at h3
    omega

/-! Claim theorems. -/

/-- Claim C3: a field constructed with `required=True` and a non-empty
choice set reports, with no value set, exactly the required-failure error
(which spells out the field's label, and the choice rule is a no-op on the
absent value); with any value set that is not among the choices it
reports exactly the choice-violation error and no required error. -/
theorem c3_required_field_with_choices (label format : String) (cs : List String)
    (ctx : PyCtxVal) (hcs : cs ≠ []) :
    DataRecord.validate (dataRecordInit label format (some cs) none true none) ctx
        = [requiredErrorMsg label]
    ∧ ∀ v : PyVal, pyMem v cs = false →
        DataRecord.validate
          ({ dataRecordInit label format (some cs) none true none with
              value := some v }) ctx
          = [choicesErrorMsg label cs] := by
  constructor
  · rfl
  · intro v hv
    simp [DataRecord.validate, dataRecordInit, runValidator, hv]

/-- Witness for C3 at the concrete `JCAMP-DX` field: choices `["5.01"]`,
no value set yields exactly the required error; the value `9.99` yields
exactly the choice error. -/
theorem c3_required_field_with_choices_witness :
    DataRecord.validate
        (dataRecordInit "JCAMP-DX" "STRING" (some ["5.01"]) none true none)
        PyCtxVal.boundMethod
      = [requiredErrorMsg "JCAMP-DX"]
    ∧ ∀ v : PyVal, pyMem v ["5.01"] = false →
        DataRecord.validate
          ({ dataRecordInit "JCAMP-DX" "STRING" (some ["5.01"]) none true none with
              value := some v }) PyCtxVal.boundMethod
          = [choicesErrorMsg "JCAMP-DX" ["5.01"]] :=
  c3_required_field_with_choices "JCAMP-DX" "STRING" ["5.01"] PyCtxVal.boundMethod
    (by decide)

/-- Claim C4 evidence (code bug): `BaseJDX.validate` reads
`values_dict = self.values_dict` without calling the method, so the
context object every validator receives is the bound method, never the
dictionary of sibling values that `values_dict()` would return and that
the docstrings promise. -/
theorem c4_validators_receive_bound_method :
    (∀ b : Block, blockValidateContext b = PyCtxVal.boundMethod)
    ∧ (∀ b : Block, blockValidateContext b ≠ PyCtxVal.dict (blockValuesDict b))
    ∧ ∀ (b : Block) (names : List String), getOutputDataRecords b = Except.ok names →
        blockValidate b = Except.ok
          ((names.map (fun n => (n, (lookupRecord b n).validate PyCtxVal.boundMethod))).filter
            (fun p => !p.2.isEmpty)) := by
  refine ⟨fun b => rfl, fun b h => PyCtxVal.noConfusion h, fun b names h => ?_⟩
  simp [blockValidate, h, blockValidateContext]

/-- Claim C6: constructing a sequential table record with a well-formed
format token and any compression mode other than `"AFFN"` fails with the
`NotImplementedError`; it never returns a constructed record. -/
theorem c6_non_affn_compression_rejected (label format compression : String)
    (dims : List Char) (dp : Nat) (sc : Bool)
    (hfmt : parseSeqFormat format = some dims) (hcomp : compression ≠ "AFFN") :
    sequenceDataTableRecordInit label format compression dp sc
        = Except.error (InitError.notImplementedError
            "Only AFFN (i.e. no compression) is available")
    ∧ ∀ r, sequenceDataTableRecordInit label format compression dp sc ≠ Except.ok r := by
  have h1 : sequenceDataTableRecordInit label format compression dp sc
      = Except.error (InitError.notImplementedError
          "Only AFFN (i.e. no compression) is available") := by
    rw [sequenceDataTableRecordInit, hfmt]
    simp [hcomp]
  exact ⟨h1, fun r hr => by rw [h1] at hr; exact Except.noConfusion hr⟩

/-- Witness for C6: requesting the squeezed-difference compression `ASDF`
on the standard `(X++(Y..Y))` format fails at construction. -/
theorem c6_non_affn_compression_rejected_witness :
    sequenceDataTableRecordInit "XYDATA" "(X++(Y..Y))" "ASDF" 4 false
        = Except.error (InitError.notImplementedError
            "Only AFFN (i.e. no compression) is available")
    ∧ ∀ r, sequenceDataTableRecordInit "XYDATA" "(X++(Y..Y))" "ASDF" 4 false
        ≠ Except.ok r :=
  c6_non_affn_compression_rejected "XYDATA" "(X++(Y..Y))" "ASDF" ['X', 'Y'] 4 false
    (by decide) (by decide)

/-- Claim C7: the shipped date-format rule fails on every record value —
the malformed nested accessor `datetime.datetime` makes every per-format
parse attempt raise, so the rule always ends in its `ValidationError` and
never returns success, even on a value matching one of the five allowed
formats. -/
theorem c7_date_validator_never_succeeds :
    ∀ (r : DataRecord) (ctx : PyCtxVal),
      runValidator Validator.validateDate r ctx = Except.error dateErrorMsg
      ∧ ∀ b : Bool, runValidator Validator.validateDate r ctx ≠ Except.ok b := by
  intro r ctx
  refine ⟨rfl, fun b hb => ?_⟩
  rw [show runValidator Validator.validateDate r ctx = Except.error dateErrorMsg
    from rfl] at hb
  exact Except.noConfusion hb

/-- Claim C8: a long-date field constructed without an explicit
`validators` keyword has no date rule in its validator list at all (the
locally built list is discarded), so `validate` returns no error for any
string value whatsoever. -/
theorem c8_long_date_without_validators_kwarg :
    ∀ (label : String) (required : Bool) (comment : Option String) (s : String)
      (ctx : PyCtxVal),
      Validator.validateDate ∉ (longDateRecordInit label none required comment).validators
      ∧ DataRecord.validate
          (longDateSetString (longDateRecordInit label none required comment) s) ctx
          = [] := by
  intro label required comment s ctx
  cases required <;>
    exact ⟨by simp [longDateRecordInit, dataRecordInit],
           by simp [longDateRecordInit, dataRecordInit, longDateSetString,
                    DataRecord.validate, runValidator]⟩

/-- Claim C10: the all-empty two-column matrix `[[], []]` passes the
table's shape validation (two lists, equal lengths), and the block
constructor then hits an uncaught `IndexError` deriving the first
abscissa value from `data[0][0]` — even when explicit overrides for
`firstx`, `lastx` or `npoints` are supplied, because the default argument
is evaluated eagerly. -/
theorem c10_empty_columns_pass_shape_then_index_error :
    tupleDataTableRecordDims "(XY..XY)" = Except.ok ['X', 'Y']
    ∧ dataSetterCheck 2 [[], []] = Except.ok [[], []]
    ∧ simpleJDXSetDerivedFields 2 [[], []] none none none
        = Except.error "IndexError: list index out of range"
    ∧ ∀ fx lx np : Option Int,
        simpleJDXSetDerivedFields 2 [[], []] fx lx np
          = Except.error "IndexError: list index out of range" :=
  ⟨rfl, rfl, rfl, fun _ _ _ => rfl⟩

/-- Claim C1: on every tuple table with at least one data point, the
packed rendering equals the specification's description of it — fixed
decimal formatting, per-dimension right-justification to the dimension's
maximum width, `", "` within a point, `" : "` between point-groups, and a
new line exactly when the current line plus separator plus next group
would exceed 80 — and on the data `[[1,2,3],[4,5,6]]` with 4 decimal
places it is the single stated line. -/
theorem c1_tuple_packed_rendering :
    (∀ (dp : Nat) (data : List (List Int)), data ≠ [] → (∀ v ∈ data, v ≠ []) →
        strSequentialDataLines dp data = Except.ok (specPackedDataLines dp data))
    ∧ strSequentialDataLines 4 [[1, 2, 3], [4, 5, 6]]
        = Except.ok ["1.0000, 4.0000 : 2.0000, 5.0000 : 3.0000, 6.0000"] := by
  constructor
  · intro dp data hne h
    have hgs : specPointGroups dp data ≠ [] := specPointGroups_ne_nil dp data hne h
    rw [strSequentialDataLines, formatDimensions_eq_spec dp data h]
    change (match specPointGroups dp data with
      | [] => Except.error "IndexError: list index out of range"
      | first :: rest => Except.ok (packLoop rest first []))
      = Except.ok (specPackedDataLines dp data)
    cases hgs2 : specPointGroups dp data with
    | nil => exact absurd hgs2 hgs
    | cons g gs =>
      simp only [specPackedDataLines, hgs2, List.foldl_cons, packLoop_eq_foldl]
      rfl
  · rfl

/-- Claim C5 counterexample: a compound document whose child list was
extended directly (not through `add_block`) renders a header whose
`##BLOCKS=` line still shows the stale stored count 0, although the child
list holds 2 blocks when the render begins; the recomputed count appears
only in the post-render state. -/
theorem c5_stale_block_count_counterexample :
    blockHeadersRepr { records := compoundRecords c5Mutated, outputDataRecords := none }
        = Except.ok "##TITLE= t\n##JCAMP-DX= 5.01\n##DATA TYPE= LINK\n##BLOCKS= 0"
    ∧ c5Mutated.blocks.length = 2
    ∧ compoundRepr c5Mutated = Except.ok
        ("##TITLE= t\n##JCAMP-DX= 5.01\n##DATA TYPE= LINK\n##BLOCKS= 0\n\nB1\n\nB2\n\n##END=",
         { c5Mutated with blockCountValue := some (PyVal.int 2) })
    ∧ "##TITLE= t\n##JCAMP-DX= 5.01\n##DATA TYPE= LINK\n##BLOCKS= 0"
        = String.intercalate "\n"
            ["##TITLE= t", "##JCAMP-DX= 5.01", "##DATA TYPE= LINK", "##BLOCKS= 0"]
    ∧ "##BLOCKS= 0" ∈
        ["##TITLE= t", "##JCAMP-DX= 5.01", "##DATA TYPE= LINK", "##BLOCKS= 0"]
    ∧ "##BLOCKS= 2" ∉
        ["##TITLE= t", "##JCAMP-DX= 5.01", "##DATA TYPE= LINK", "##BLOCKS= 0"] := by
  refine ⟨rfl, rfl, rfl, rfl, ?_, ?_⟩ <;> decide

/-- Claim C5, amended: the `##BLOCKS=` count a render emits is the value
stored in the block-count field when the render begins (the constructor
and `add_block` keep that value equal to the list length); the render
recomputes the count from the list only after the header text is built,
so the recomputed value is what the *next* render emits. -/
theorem c5_block_count_amended :
    (∀ (title : String) (blocks : List String),
        (compoundInit title blocks).blockCountValue
          = some (PyVal.int (Int.ofNat blocks.length)))
    ∧ (∀ (c : CompoundJDX) (t : String),
        (compoundAddBlock c t).blockCountValue
          = some (PyVal.int (Int.ofNat (compoundAddBlock c t).blocks.length)))
    ∧ (∀ c : CompoundJDX, compoundRepr c =
        match blockHeadersRepr { records := compoundRecords c, outputDataRecords := none } with
        | Except.error e => Except.error e
        | Except.ok headers =>
          Except.ok (String.intercalate "\n\n" ([headers] ++ c.blocks ++ ["##END="]),
                     { c with blockCountValue := some (PyVal.int (Int.ofNat c.blocks.length)) }))
    ∧ (∀ (c : CompoundJDX) (out : String) (c2 : CompoundJDX),
        compoundRepr c = Except.ok (out, c2) →
          c2.blockCountValue = some (PyVal.int (Int.ofNat c2.blocks.length))
          ∧ c2.blocks = c.blocks) := by
  refine ⟨fun _ _ => rfl, fun c t => by simp [compoundAddBlock], fun c => rfl,
    fun c out c2 h => ?_⟩
  rw [compoundRepr] at h
  cases hh : blockHeadersRepr { records := compoundRecords c, outputDataRecords := none } with
  | error e => rw [hh] at h; exact Except.noConfusion h
  | ok headers =>
    rw [hh] at h
    have h2 := Except.ok.inj h
    have h3 : c2 = { c with blockCountValue := some (PyVal.int (Int.ofNat c.blocks.length)) } :=
      congrArg Prod.snd h2 |>.symm
    rw [h3]
    exact ⟨rfl, rfl⟩

/-- Claim C9: with the default output selection, a non-required record
whose value has been set to a falsy value (the number 0, the empty
string) is left out of the output set — selection tests the truthiness of
the stored value, not whether a value is present. -/
theorem c9_falsy_value_excluded (b : Block) (name : String) (r : DataRecord)
    (hout : b.outputDataRecords = none)
    (hmem : (name, r) ∈ b.records)
    (hreq : r.required = false)
    (hset : r.value ≠ none)
    (hfalsy : pyTruthy r.value = false)
    (hnodup : (b.records.map Prod.fst).Nodup) :
    name ∉ defaultOutputRecords b
    ∧ ∀ out, getOutputDataRecords b = Except.ok out → name ∉ out := by
  have hmain : name ∉ defaultOutputRecords b := by
    intro hcontra
    rcases List.mem_map.mp hcontra with ⟨p, hpf, hpname⟩
    rcases List.mem_filter.mp hpf with ⟨hpmem, hpcond⟩
    have hpeq : p = (name, r) :=
      assoc_pair_eq_of_nodup b.records hnodup hpmem hmem hpname
    rw [hpeq] at hpcond
    simp only [hreq, hfalsy, Bool.or_self] at hpcond
    exact Bool.false_ne_true hpcond
  refine ⟨hmain, fun out hok hcontra => ?_⟩
  simp only [getOutputDataRecords, hout] at hok
  split at hok
  · exact Except.noConfusion hok
  · split at hok
    · have hde : defaultOutputRecords b = out := Except.ok.inj hok
      exact hmain (by rw [hde]; exact hcontra)
    · exact Except.noConfusion hok

/-- Witness for C9: in a block holding a required `title` and an optional
`mp` record whose value was set to the number 0, the default output
selection omits `mp`. -/
theorem c9_falsy_value_excluded_witness :
    "mp" ∉ defaultOutputRecords c9Block
    ∧ ∀ out, getOutputDataRecords c9Block = Except.ok out → "mp" ∉ out :=
  c9_falsy_value_excluded c9Block "mp"
    ({ dataRecordInit "MP" "AFFN" none none false none with
        value := some (PyVal.int 0) })
    rfl (by decide) rfl (by decide) rfl (by decide)

/-! Lemmas about the embedded `textwrap` machinery. -/

theorem takeFit_append (width : Nat) (curLen : Nat) (cs : List (List Char)) :
    (takeFit width curLen cs).1 ++ (takeFit width curLen cs).2.2 = cs := by
  induction cs generalizing curLen with
  | nil => rfl
  | cons c rest ih =>
    simp only [takeFit]
    by_cases hfit : curLen + c.length ≤ width
    · rw [if_pos hfit]
      simp [ih]
    · rw [if_neg hfit]
      rfl

theorem takeFit_len_le (width : Nat) (curLen : Nat) (cs : List (List Char))
    (h : curLen ≤ width) : (takeFit width curLen cs).2.1 ≤ width := by
  induction cs generalizing curLen with
  | nil => exact h
  | cons c rest ih =>
    simp only [takeFit]
    by_cases hfit : curLen + c.length ≤ width
    · rw [if_pos hfit]
      exact ih (curLen + c.length) hfit
    · rw [if_neg hfit]
      exact h

theorem takeFit_sum (width : Nat) (curLen : Nat) (cs : List (List Char)) :
    (takeFit width curLen cs).2.1
      = curLen + ((takeFit width curLen cs).1.map List.length).sum := by
  induction cs generalizing curLen with
  | nil => simp [takeFit]
  | cons c rest ih =>
    simp only [takeFit]
    by_cases hfit : curLen + c.length ≤ width
    · rw [if_pos hfit]
      simp only [List.map_cons, List.sum_cons]
      rw [ih (curLen + c.length)]
      omega
    · rw [if_neg hfit]
      simp

theorem chunkMeasure_nil : chunkMeasure [] = 0 := rfl

theorem chunkMeasure_cons (c : List Char) (cs : List (List Char)) :
    chunkMeasure (c :: cs) = c.length + 1 + chunkMeasure cs := by
  simp [chunkMeasure]

theorem chunkMeasure_append (a b : List (List Char)) :
    chunkMeasure (a ++ b) = chunkMeasure a + chunkMeasure b := by
  simp [chunkMeasure]

theorem chunkMeasure_eq_zero (cs : List (List Char)) (h : chunkMeasure cs = 0) :
    cs = [] := by
  cases cs with
  | nil => rfl
  | cons c rest =>
    rw [chunkMeasure_cons] at h
    omega

theorem sumLens_dropLast_le (l : List (List Char)) :
    (l.dropLast.map List.length).sum ≤ (l.map List.length).sum := by
  induction l with
  | nil => simp
  | cons c t ih =>
    cases t with
    | nil => simp
    | cons d t' =>
      simp only [List.dropLast_cons₂, List.map_cons, List.sum_cons]
      simp only [List.map_cons, List.sum_cons] at ih
      omega

theorem sumLens_dropTrailingWs_le (l : List (List Char)) :
    ((dropTrailingWs l).map List.length).sum ≤ (l.map List.length).sum := by
  rw [dropTrailingWs]
  split
  · split
    · exact sumLens_dropLast_le l
    · exact le_refl _
  · simp

theorem handleLong_sum_le (width : Nat) (hw : 1 ≤ width) (cs1 : List (List Char)) :
    (((handleLongWord width (takeFit width 0 cs1).2.1 (takeFit width 0 cs1).1
        (takeFit width 0 cs1).2.2).1).map List.length).sum ≤ width := by
  have hsum : ((takeFit width 0 cs1).1.map List.length).sum = (takeFit width 0 cs1).2.1 := by
    have h := takeFit_sum width 0 cs1
    omega
  have hle : (takeFit width 0 cs1).2.1 ≤ width := takeFit_len_le width 0 cs1 (Nat.zero_le _)
  cases hrem : (takeFit width 0 cs1).2.2 with
  | nil =>
    simp only [handleLongWord]
    simpa [hsum]
  | cons c rest =>
    simp only [handleLongWord]
    by_cases hc : width < c.length
    · rw [if_pos hc]
      simp only [List.map_append, List.sum_append, List.map_cons, List.sum_cons,
        List.map_nil, List.sum_nil, List.length_take]
      rw [if_neg (by omega : ¬ width < 1), hsum]
      omega
    · rw [if_neg hc]
      simpa [hsum]

theorem wrapStep_line_le (width : Nat) (hw : 1 ≤ width) (hasLines : Bool)
    (chunks : List (List Char)) (l : List Char)
    (h : (wrapStep width hasLines chunks).1 = some l) : l.length ≤ width := by
  simp only [wrapStep] at h
  split at h
  · exact Option.noConfusion h
  · have hl := (Option.some.inj h).symm
    rw [hl, List.length_flatten]
    exact le_trans (sumLens_dropTrailingWs_le _)
      (handleLong_sum_le width hw (dropLeadingWs hasLines chunks))

theorem handleLong_rem_le (width : Nat) (curLen : Nat)
    (curLine rem : List (List Char)) :
    chunkMeasure (handleLongWord width curLen curLine rem).2 ≤ chunkMeasure rem := by
  cases rem with
  | nil => simp [handleLongWord]
  | cons c rest =>
    simp only [handleLongWord]
    by_cases hc : width < c.length
    · rw [if_pos hc]
      rw [chunkMeasure_cons, chunkMeasure_cons, List.length_drop]
      omega
    · rw [if_neg hc]

theorem wrapCore_measure_lt (width : Nat) (cs1 : List (List Char)) (hne : cs1 ≠ []) :
    chunkMeasure (handleLongWord width (takeFit width 0 cs1).2.1 (takeFit width 0 cs1).1
      (takeFit width 0 cs1).2.2).2 < chunkMeasure cs1 := by
  cases cs1 with
  | nil => exact absurd rfl hne
  | cons d ds =>
    by_cases hfit : 0 + d.length ≤ width
    · simp only [takeFit, if_pos hfit]
      have happ := takeFit_append width (0 + d.length) ds
      have hle : chunkMeasure (takeFit width (0 + d.length) ds).2.2 ≤ chunkMeasure ds := by
        conv_rhs => rw [← happ]
        rw [chunkMeasure_append]
        omega
      have hrem := handleLong_rem_le width
        (takeFit width (0 + d.length) ds).2.1
        (d :: (takeFit width (0 + d.length) ds).1)
        (takeFit width (0 + d.length) ds).2.2
      rw [chunkMeasure_cons]
      omega
    · simp only [takeFit, if_neg hfit]
      have hc : width < d.length := by omega
      simp only [handleLongWord, if_pos hc]
      rw [chunkMeasure_cons, chunkMeasure_cons, List.length_drop]
      have hsl : 1 ≤ (if width < 1 then 1 else width - 0) := by
        split <;> omega
      omega

theorem wrapCore_measure_le (width : Nat) (cs1 : List (List Char)) :
    chunkMeasure (handleLongWord width (takeFit width 0 cs1).2.1 (takeFit width 0 cs1).1
      (takeFit width 0 cs1).2.2).2 ≤ chunkMeasure cs1 := by
  cases cs1 with
  | nil => simp [takeFit, handleLongWord, chunkMeasure_nil]
  | cons d ds => exact le_of_lt (wrapCore_measure_lt width (d :: ds) (by simp))

theorem wrapStep_measure_lt (width : Nat) (hasLines : Bool) (c : List Char)
    (rest : List (List Char)) :
    chunkMeasure (wrapStep width hasLines (c :: rest)).2 < chunkMeasure (c :: rest) := by
  simp only [wrapStep]
  cases hasLines with
  | false =>
    simp only [dropLeadingWs]
    exact wrapCore_measure_lt width (c :: rest) (by simp)
  | true =>
    simp only [dropLeadingWs]
    by_cases hws : wsChunk c = true
    · rw [if_pos hws]
      have h1 := wrapCore_measure_le width rest
      rw [chunkMeasure_cons]
      omega
    · rw [if_neg hws]
      exact wrapCore_measure_lt width (c :: rest) (by simp)

theorem wrapLoopFuel_nil (width : Nat) (f : Nat) (hl : Bool) :
    wrapLoopFuel width f hl [] = [] := by
  cases f <;> rfl

theorem wrapLoopFuel_congr (width : Nat) :
    ∀ (f g : Nat) (hl : Bool) (cs : List (List Char)),
      chunkMeasure cs ≤ f → chunkMeasure cs ≤ g →
      wrapLoopFuel width f hl cs = wrapLoopFuel width g hl cs := by
  intro f
  induction f with
  | zero =>
    intro g hl cs hf hg
    rw [chunkMeasure_eq_zero cs (Nat.le_zero.mp hf), wrapLoopFuel_nil, wrapLoopFuel_nil]
  | succ f ih =>
    intro g hl cs hf hg
    cases cs with
    | nil => rw [wrapLoopFuel_nil, wrapLoopFuel_nil]
    | cons c rest =>
      cases g with
      | zero =>
        exfalso
        have h0 := chunkMeasure_eq_zero (c :: rest) (Nat.le_zero.mp hg)
        exact List.noConfusion h0
      | succ g =>
        simp only [wrapLoopFuel]
        have hlt := wrapStep_measure_lt width hl c rest
        cases hstep : (wrapStep width hl (c :: rest)).1 with
        | some l =>
          simp only [hstep]
          congr 1
          exact ih g true _ (by omega) (by omega)
        | none =>
          simp only [hstep]
          exact ih g hl _ (by omega) (by omega)

theorem wrapLoopFuel_length_le (width : Nat) (hw : 1 ≤ width) :
    ∀ (f : Nat) (hl : Bool) (cs : List (List Char)) (l : List Char),
      l ∈ wrapLoopFuel width f hl cs → l.length ≤ width := by
  intro f
  induction f with
  | zero =>
    intro hl cs l hmem
    simp [wrapLoopFuel] at hmem
  | succ f ih =>
    intro hl cs l hmem
    cases cs with
    | nil => simp [wrapLoopFuel] at hmem
    | cons c rest =>
      simp only [wrapLoopFuel] at hmem
      cases hstep : (wrapStep width hl (c :: rest)).1 with
      | some l0 =>
        simp only [hstep] at hmem
        rcases List.mem_cons.mp hmem with h1 | h2
        · exact h1 ▸ wrapStep_line_le width hw hl (c :: rest) l0 hstep
        · exact ih true _ l h2
      | none =>
        simp only [hstep] at hmem
        exact ih hl _ l hmem

theorem pyWrap_lines_le (width : Nat) (hw : 1 ≤ width) (text : String) :
    ∀ s ∈ pyWrap width text, s.length ≤ width := by
  intro s hs
  simp only [pyWrap] at hs
  rcases List.mem_map.mp hs with ⟨l, hl, hsl⟩
  rw [← hsl]
  exact wrapLoopFuel_length_le width hw _ _ _ l hl

/-- Claim C2, amended: for every field with a non-absent value (no inline
comment; tab- and hyphen-free text, the domain on which the embedded
wrapping is exact), every rendered line is at most 80 characters — a
whitespace-free token longer than the space left on a line is hard-split
at the 80-column boundary rather than emitted un-split, so no line ever
exceeds 80. -/
theorem c2_wrapped_lines_at_most_80 (r : DataRecord) (v : PyVal)
    (hval : r.value = some v) (hcom : r.comment = none)
    (hlabel : r.label.data.all (fun ch => !(ch == '\t' || ch == '-')) = true)
    (hvalue : (pyValStr v).data.all (fun ch => !(ch == '\t' || ch == '-')) = true) :
    ∀ l ∈ r.strLines, l.length ≤ 80 := by
  intro l hl
  simp only [DataRecord.strLines, hval, hcom] at hl
  exact pyWrap_lines_le 80 (by omega) _ l hl

/-- Witness for the amended C2 at a concrete record (`TITLE` with value
`hello`): its one rendered line is within 80 characters. -/
theorem c2_wrapped_lines_at_most_80_witness :
    ("##TITLE= hello" : String).length ≤ 80 :=
  c2_wrapped_lines_at_most_80 c2ShortRecord (PyVal.str "hello") rfl rfl (by decide)
    (by decide) "##TITLE= hello" (by decide)

/-- Claim C2 counterexample: a single whitespace-free token of 100
characters is not emitted un-split on its own line — rendering `##X=`
with a value of one hundred `a` characters splits the token at the
80-column boundary into a 75-character piece completing the first line
and a 25-character remainder line, and no rendered line equals the
token. -/
theorem c2_long_token_split_counterexample :
    DataRecord.strLines c2CexRecord
      = ["##X= " ++ String.mk (List.replicate 75 'a'), String.mk (List.replicate 25 'a')]
    ∧ String.mk (List.replicate 100 'a') ∉ DataRecord.strLines c2CexRecord
    ∧ ("##X= " ++ String.mk (List.replicate 75 'a')).length = 80 := by
  refine ⟨by decide, by decide, by decide⟩

end PyJdx
